import Mathlib

/-!
Verification of the patch application and cancellation engine of
`src/kpatch_user.c` (libcare user-space live patching).

The remote (victim) memory is modelled as a flat byte store `Mem = Nat → Nat`;
the remote primitives `kpatch_process_memcpy` / `kpatch_process_mem_write`
(external collaborators) become pure writes, with per-call success booleans
where a claim depends on failure behaviour.  Pure functions of the source are
translated definition by definition.
-/

set_option autoImplicit false

namespace Libcare

/-! ## Remote memory model -/

/-- Remote (victim) memory: a byte at every address. -/
abbrev Mem := Nat → Nat

/-- Write the byte list `bs` at address `a` (the effect of a successful
`kpatch_process_mem_write(proc, bs, a, bs.length)`). -/
def memWrite (m : Mem) (a : Nat) (bs : List Nat) : Mem :=
  fun x => if a ≤ x ∧ x < a + bs.length then bs.getD (x - a) 0 else m x

/-- Read `n` bytes starting at address `a`. -/
def memRead (m : Mem) (a : Nat) : Nat → List Nat
  | 0 => []
  | n + 1 => m a :: memRead m (a + 1) n

/-- The effect of a successful `kpatch_process_memcpy(proc, dst, src, n)`:
copy `n` bytes from remote `src` to remote `dst`. -/
def process_memcpy (m : Mem) (dst src n : Nat) : Mem :=
  memWrite m dst (memRead m src n)

theorem memRead_length (m : Mem) (a : Nat) : ∀ n, (memRead m a n).length = n := by
  intro n
  induction n generalizing a with
  | zero => rfl
  | succ k ih => simp [memRead, ih]

theorem memRead_congr {m₁ m₂ : Mem} :
    ∀ (n a : Nat), (∀ i, i < n → m₁ (a + i) = m₂ (a + i)) →
      memRead m₁ a n = memRead m₂ a n := by
  intro n
  induction n with
  | zero => intro a _; rfl
  | succ k ih =>
    intro a h
    have h0 := h 0 (Nat.succ_pos k)
    simp only [Nat.add_zero] at h0
    have ht : memRead m₁ (a + 1) k = memRead m₂ (a + 1) k := by
      apply ih
      intro i hi
      have := h (i + 1) (by omega)
      have hx : a + (i + 1) = a + 1 + i := by omega
      rw [hx] at this
      exact this
    simp [memRead, h0, ht]

theorem memRead_of_pointwise :
    ∀ (bs : List Nat) (a : Nat) (m : Mem),
      (∀ i, i < bs.length → m (a + i) = bs.getD i 0) →
      memRead m a bs.length = bs := by
  intro bs
  induction bs with
  | nil => intro a m _; rfl
  | cons c cs ih =>
    intro a m h
    have h0 := h 0 (by simp)
    simp only [Nat.add_zero, List.getD] at h0
    have ht : memRead m (a + 1) cs.length = cs := by
      apply ih
      intro i hi
      have := h (i + 1) (by simpa using Nat.succ_lt_succ hi)
      have hx : a + (i + 1) = a + 1 + i := by omega
      rw [hx] at this
      simpa using this
    simp [memRead, ht, h0]

theorem memRead_memWrite_self (m : Mem) (a : Nat) (bs : List Nat) :
    memRead (memWrite m a bs) a bs.length = bs := by
  apply memRead_of_pointwise
  intro i hi
  simp only [memWrite]
  rw [if_pos (by omega)]
  congr 1
  omega

theorem memRead_memWrite_self_len (m : Mem) (a : Nat) (bs : List Nat) (n : Nat)
    (h : bs.length = n) : memRead (memWrite m a bs) a n = bs := by
  subst h
  exact memRead_memWrite_self m a bs

theorem memRead_memWrite_disjoint (m : Mem) (a : Nat) (bs : List Nat) (b len : Nat)
    (h : b + len ≤ a ∨ a + bs.length ≤ b) :
    memRead (memWrite m a bs) b len = memRead m b len := by
  apply memRead_congr
  intro i hi
  simp only [memWrite]
  rw [if_neg (by omega)]

/-! ## Patch data model (`struct kpatch_info`, §3 of the spec) -/

/-- One hunk record: destination (original code) address/length, source
(replacement inside the mapped patch) address/length, and runtime flags. -/
structure KpatchInfo where
  daddr : Nat
  dlen : Nat
  saddr : Nat
  slen : Nat
  flags : Nat
deriving DecidableEq

/-- Modelled from the spec: `is_new_func` is defined in `kpatch_file.h`, which
is not among the sources; §3 says a "new function" variant has no
`daddr`/`dlen`, signalling a pure addition with no hunk to install. -/
def is_new_func (i : KpatchInfo) : Bool :=
  i.daddr == 0 && i.dlen == 0

/-- `PATCH_APPLIED` (1 << 31), the runtime-local flag of `kpatch_user.c`. -/
def PATCH_APPLIED : Nat := 2 ^ 31

/-- `HUNK_SIZE`, the 5 bytes of an installed near jump. -/
def HUNK_SIZE : Nat := 5

/-- The slice of `struct object_file` that the hunk install/restore code
reads: remote patch base `kpta`, the blob header fields `user_undo` and the
mapped size, and the hunk table `info[]` / `ninfo`. -/
structure ObjectFile where
  kpta : Nat
  user_undo : Nat
  kpfileSize : Nat
  info : List KpatchInfo
deriving DecidableEq

/-- Little-endian byte decomposition of a 32-bit value. -/
def le32 (n : Nat) : List Nat :=
  [n % 256, n / 2 ^ 8 % 256, n / 2 ^ 16 % 256, n / 2 ^ 24 % 256]

/-- `(unsigned int)(saddr - daddr - 5)` computed on 64-bit unsigned values and
truncated to 32 bits: the displacement of the installed `jmp`. -/
def disp32 (saddr daddr : Nat) : Nat :=
  (((saddr : Int) - (daddr : Int) - 5) % (2 ^ 32)).toNat

/-- `patch_apply_hunk` (kpatch_user.c:589-621).  `cpyOk` / `wrOk` are the
success of the two remote operations (`kpatch_process_memcpy` saving the
original bytes, `kpatch_process_mem_write` installing the jump); a failed
remote operation leaves memory unchanged.  Returns (result, memory, object):
the C function mutates `info->flags` in place, modelled by returning the
updated object. -/
def patch_apply_hunk (o : ObjectFile) (m : Mem) (nhunk : Nat) (cpyOk wrOk : Bool) :
    Int × Mem × ObjectFile :=
  let info := o.info.getD nhunk ⟨0, 0, 0, 0, 0⟩
  if is_new_func info then (0, m, o)
  else if !cpyOk then (-1, m, o)
  else
    let pundo := o.kpta + o.user_undo + nhunk * HUNK_SIZE
    let m1 := process_memcpy m pundo info.daddr HUNK_SIZE
    let code : List Nat := 0xE9 :: le32 (disp32 info.saddr info.daddr)
    let m2 := if wrOk then memWrite m1 info.daddr code else m1
    let o' : ObjectFile :=
      { o with info := o.info.set nhunk { info with flags := info.flags ||| PATCH_APPLIED } }
    (if wrOk then 0 else -1, m2, o')

/-- The hunk-installation loop of `object_apply_patch` (kpatch_user.c:716-720),
with all remote operations succeeding. -/
def apply_hunks_go (m : Mem) (o : ObjectFile) : List Nat → Int × Mem × ObjectFile
  | [] => (1, m, o)
  | i :: rest =>
    let r := patch_apply_hunk o m i true true
    if r.1 < 0 then r else apply_hunks_go r.2.1 r.2.2 rest

/-- All iterations `i = 0 .. ninfo-1` of the install loop. -/
def install_all_hunks (o : ObjectFile) (m : Mem) : Int × Mem × ObjectFile :=
  apply_hunks_go m o (List.range o.info.length)

/-- The remote-memory effect of a successful `object_apply_patch`
(kpatch_user.c:639-723): the duplicated blob is written at `kpta`
(`kpatch_process_mem_write(proc, kp, kpta, total_size)`), then every hunk is
installed.  The preparatory steps (duplication, info loading, layout,
allocation, resolution, relocation and the safety gate) are external
collaborators or do not touch remote memory. -/
def object_apply_patch_mem (o : ObjectFile) (blob : List Nat) (m : Mem) :
    Int × Mem × ObjectFile :=
  install_all_hunks o (memWrite m o.kpta blob)

/-- The restore loop of `object_unapply_patch` (kpatch_user.c:1022-1039):
`orig_code_addr` starts at `kpta + user_undo` and advances by `HUNK_SIZE` only
on iterations that actually restore. -/
def unapply_restore (m : Mem) (check_flag : Bool) : List KpatchInfo → Nat → Mem
  | [], _ => m
  | i :: rest, orig =>
    if is_new_func i then unapply_restore m check_flag rest orig
    else if check_flag && ((i.flags &&& PATCH_APPLIED) == 0) then
      unapply_restore m check_flag rest orig
    else
      unapply_restore (process_memcpy m i.daddr orig HUNK_SIZE) check_flag rest
        (orig + HUNK_SIZE)

/-- `object_unapply_patch` (kpatch_user.c:1005-1046) on the success path:
restore bytes, then `kpatch_munmap_remote(pctx, kpta, kpfile.size)`.  Returns
the final memory and the `(address, length)` pair passed to the remote unmap. -/
def object_unapply_patch (o : ObjectFile) (m : Mem) (check_flag : Bool) :
    Mem × Nat × Nat :=
  (unapply_restore m check_flag o.info (o.kpta + o.user_undo), o.kpta, o.kpfileSize)

/-- Apply (blob write + all hunks) followed by Cancel on the same object. -/
def apply_then_unapply (o : ObjectFile) (blob : List Nat) (m : Mem)
    (check_flag : Bool) : Mem × Nat × Nat :=
  let r := object_apply_patch_mem o blob m
  object_unapply_patch r.2.2 r.2.1 check_flag

/-! ## C1: the two writes of `patch_apply_hunk` -/

/-- C1: for a non-new hunk `i` on which `patch_apply_hunk` succeeds (both
remote operations succeed), the 5 bytes previously at `info[i].daddr` end up
at `kpta + user_undo + 5*i`, and the 5 bytes at `daddr` become `E9` followed
by the little-endian 32-bit value `saddr - daddr - 5`.  The undo slot of the
freshly mapped patch region is disjoint from the victim code at `daddr`. -/
theorem patch_apply_hunk_writes (o : ObjectFile) (m : Mem) (i : Nat)
    (hnew : is_new_func (o.info.getD i ⟨0, 0, 0, 0, 0⟩) = false)
    (hdisj : (o.info.getD i ⟨0, 0, 0, 0, 0⟩).daddr + HUNK_SIZE ≤
               o.kpta + o.user_undo + i * HUNK_SIZE ∨
             o.kpta + o.user_undo + i * HUNK_SIZE + HUNK_SIZE ≤
               (o.info.getD i ⟨0, 0, 0, 0, 0⟩).daddr) :
    (patch_apply_hunk o m i true true).1 = 0 ∧
    memRead (patch_apply_hunk o m i true true).2.1
        (o.kpta + o.user_undo + i * HUNK_SIZE) HUNK_SIZE
      = memRead m (o.info.getD i ⟨0, 0, 0, 0, 0⟩).daddr HUNK_SIZE ∧
    memRead (patch_apply_hunk o m i true true).2.1
        (o.info.getD i ⟨0, 0, 0, 0, 0⟩).daddr HUNK_SIZE
      = 0xE9 :: le32 (disp32 (o.info.getD i ⟨0, 0, 0, 0, 0⟩).saddr
                             (o.info.getD i ⟨0, 0, 0, 0, 0⟩).daddr) := by
  set info := o.info.getD i ⟨0, 0, 0, 0, 0⟩ with hinfo
  set pundo := o.kpta + o.user_undo + i * HUNK_SIZE with hpundo
  have hcodelen : (0xE9 :: le32 (disp32 info.saddr info.daddr)).length = HUNK_SIZE := by
    simp [le32, HUNK_SIZE]
  simp only [patch_apply_hunk, hnew, Bool.false_eq_true, if_false, Bool.not_true,
    if_true, ← hinfo, ← hpundo]
  refine ⟨by simp, ?_, ?_⟩
  · rw [memRead_memWrite_disjoint _ _ _ _ _ (by rw [hcodelen]; omega)]
    show memRead (memWrite m pundo (memRead m info.daddr HUNK_SIZE)) pundo HUNK_SIZE = _
    exact memRead_memWrite_self_len _ _ _ _ (memRead_length m info.daddr HUNK_SIZE)
  · exact memRead_memWrite_self_len _ _ _ _ hcodelen

/-- C1 witness: the theorem evaluated at a concrete hunk and memory. -/
theorem patch_apply_hunk_writes_witness :
    (patch_apply_hunk ⟨4096, 256, 4096, [⟨100, 16, 4296, 32, 0⟩]⟩
        (fun a => a % 256) 0 true true).1 = 0 ∧
    memRead (patch_apply_hunk ⟨4096, 256, 4096, [⟨100, 16, 4296, 32, 0⟩]⟩
        (fun a => a % 256) 0 true true).2.1 (4096 + 256 + 0 * HUNK_SIZE) HUNK_SIZE
      = memRead (fun a => a % 256) 100 HUNK_SIZE ∧
    memRead (patch_apply_hunk ⟨4096, 256, 4096, [⟨100, 16, 4296, 32, 0⟩]⟩
        (fun a => a % 256) 0 true true).2.1 100 HUNK_SIZE
      = 0xE9 :: le32 (disp32 4296 100) :=
  patch_apply_hunk_writes ⟨4096, 256, 4096, [⟨100, 16, 4296, 32, 0⟩]⟩
    (fun a => a % 256) 0 (by decide) (by decide)

/-! ## C4: when is the local `PATCH_APPLIED` flag set -/

theorem getD_set_self {α : Type} (l : List α) :
    ∀ (i : Nat) (a d : α), i < l.length → (l.set i a).getD i d = a := by
  induction l with
  | nil => intro i a d h; simp at h
  | cons x xs ih =>
    intro i a d h
    cases i with
    | zero => rfl
    | succ k =>
      have hk : k < xs.length := by simpa using h
      simpa [List.set, List.getD] using (by simpa [List.getD] using ih k a d hk)

theorem testBit_ne_zero {n : Nat} {k : Nat} (h : n.testBit k = true) : n ≠ 0 := by
  intro h0
  rw [h0, Nat.zero_testBit] at h
  exact Bool.false_ne_true h

theorem lor_pow_ne_zero (n k : Nat) : (n ||| 2 ^ k) ≠ 0 := by
  apply testBit_ne_zero (k := k)
  simp [Nat.testBit_or, Nat.testBit_two_pow_self]

theorem land_lor_pow_ne_zero (n k : Nat) : ((n ||| 2 ^ k) &&& 2 ^ k) ≠ 0 := by
  apply testBit_ne_zero (k := k)
  simp [Nat.testBit_and, Nat.testBit_or, Nat.testBit_two_pow_self]

/-- C4 counterexample: a run in which the remote 5-byte write at `daddr`
fails (`patch_apply_hunk` returns a negative result) yet the hunk carries the
local `PATCH_APPLIED` flag afterwards — `info->flags |= PATCH_APPLIED` at
kpatch_user.c:619 runs regardless of the write's result. -/
theorem applied_flag_set_despite_write_failure :
    (patch_apply_hunk ⟨4096, 256, 4096, [⟨100, 16, 4296, 32, 0⟩]⟩
        (fun a => a % 256) 0 true false).1 < 0 ∧
    (((patch_apply_hunk ⟨4096, 256, 4096, [⟨100, 16, 4296, 32, 0⟩]⟩
        (fun a => a % 256) 0 true false).2.2.info.getD 0 ⟨0, 0, 0, 0, 0⟩).flags
      &&& PATCH_APPLIED) ≠ 0 := by
  constructor
  · decide
  · show ((0 ||| PATCH_APPLIED) &&& PATCH_APPLIED) ≠ 0
    exact land_lor_pow_ne_zero 0 31

/-- C4 amended: the `APPLIED` flag is set exactly when the hunk is non-new and
the undo-save `kpatch_process_memcpy` succeeded, regardless of whether the
`daddr` write itself succeeded; so a hunk never carries `APPLIED` when its
`daddr` write was never issued, but it does carry it when the write was issued
and failed. -/
theorem patch_apply_hunk_applied_flag (o : ObjectFile) (m : Mem) (i : Nat)
    (cpyOk wrOk : Bool) :
    ((((patch_apply_hunk o m i cpyOk wrOk).2.2.info.getD i
          ⟨0, 0, 0, 0, 0⟩).flags &&& PATCH_APPLIED) ≠ 0) ↔
      (((o.info.getD i ⟨0, 0, 0, 0, 0⟩).flags &&& PATCH_APPLIED) ≠ 0 ∨
       (is_new_func (o.info.getD i ⟨0, 0, 0, 0, 0⟩) = false ∧ cpyOk = true)) := by
  set info := o.info.getD i ⟨0, 0, 0, 0, 0⟩ with hinfo
  cases hnew : is_new_func info with
  | true =>
    simp only [patch_apply_hunk, ← hinfo, hnew, if_true]
    simp
  | false =>
    cases cpyOk with
    | false =>
      simp only [patch_apply_hunk, ← hinfo, hnew, Bool.false_eq_true, if_false,
        Bool.not_false, if_true]
      simp
    | true =>
      have hlt : i < o.info.length := by
        by_contra hge
        have hnone : o.info[i]? = none := by
          rw [List.getElem?_eq_none_iff]
          omega
        have : o.info.getD i ⟨0, 0, 0, 0, 0⟩ = ⟨0, 0, 0, 0, 0⟩ := by
          simp [List.getD, hnone]
        rw [← hinfo] at this
        rw [this] at hnew
        simp [is_new_func] at hnew
      simp only [patch_apply_hunk, ← hinfo, hnew, Bool.false_eq_true, if_false,
        Bool.not_true]
      rw [getD_set_self _ _ _ _ hlt]
      simp only [PATCH_APPLIED]
      constructor
      · intro _
        simp
      · intro _
        exact land_lor_pow_ne_zero info.flags 31

/-! ## C2: Apply followed by Cancel with a new-function entry in the table -/

/-- The object of the C2 failing input: hunk table `[new-function, normal]` —
a "new function" entry precedes an ordinary hunk. -/
def c2Obj : ObjectFile :=
  ⟨4096, 256, 4096, [⟨0, 0, 5000, 4, 0⟩, ⟨100, 16, 4296, 32, 0⟩]⟩

/-- The original victim memory of the C2 failing input. -/
def c2Mem : Mem := fun a => (a + 7) % 251

/-- C2 failing input evaluated: Apply succeeds and saves the original bytes of
the (absolute) hunk index 1 at `kpta + user_undo + 5*1`, but Cancel restores
`daddr` from `kpta + user_undo + 5*0` (its running counter does not advance
over the new-function entry, kpatch_user.c:1022-1039), so the 5 bytes at
`daddr` after Apply-then-Cancel differ from the original bytes, which still
sit untouched in undo slot 1; the remote unmap of `[kpta, kpta+size)` does
happen. -/
theorem apply_then_unapply_misrestores :
    (object_apply_patch_mem c2Obj [1, 2, 3] c2Mem).1 = 1 ∧
    memRead (apply_then_unapply c2Obj [1, 2, 3] c2Mem false).1 100 HUNK_SIZE
      ≠ memRead c2Mem 100 HUNK_SIZE ∧
    memRead (apply_then_unapply c2Obj [1, 2, 3] c2Mem false).1
        (4096 + 256 + 1 * HUNK_SIZE) HUNK_SIZE
      = memRead c2Mem 100 HUNK_SIZE ∧
    (apply_then_unapply c2Obj [1, 2, 3] c2Mem false).2 = (4096, 4096) := by
  decide

/-! ## Safety verifier (`is_addr_in_info`, `object_patch_verify_safety_single`,
`patch_verify_safety`, `patch_ensure_safety`) -/

/-- The two directions, `ACTION_APPLY_PATCH` / `ACTION_UNAPPLY_PATCH`. -/
inductive Direction where
  | apply
  | unapply
deriving DecidableEq

/-- `is_addr_in_info` (kpatch_user.c:361-372): half-open interval membership
on the destination range for APPLY, the source range for UNAPPLY. -/
def is_addr_in_info (addr : Nat) (info : KpatchInfo) (direction : Direction) : Bool :=
  match direction with
  | .apply => decide (info.daddr ≤ addr) && decide (addr < info.daddr + info.dlen)
  | .unapply => decide (info.saddr ≤ addr) && decide (addr < info.saddr + info.slen)

/-- The inner scan of `object_patch_verify_safety_single` (kpatch_user.c:414-426):
the first non-new entry of `info[]` whose range contains `ip`. -/
def findHunk (info : List KpatchInfo) (dir : Direction) (ip : Nat) : Option KpatchInfo :=
  info.find? (fun h => !is_new_func h && is_addr_in_info ip h dir)

/-- `daddr` for APPLY, `saddr` for UNAPPLY — the value stored in `last`. -/
def hunkAddr (dir : Direction) (h : KpatchInfo) : Nat :=
  match dir with
  | .apply => h.daddr
  | .unapply => h.saddr

/-- The frame walk of `object_patch_verify_safety_single` (kpatch_user.c:411-435).
`stack` is the sequence of frame `ip`s in walk order; `prev`, `last` and the
`*retip` store are the loop state.  Non-paranoid mode returns at the first
frame that leaves the hunks; paranoid mode records the candidate and walks on. -/
def verifyGo (info : List KpatchInfo) (dir : Direction) (paranoid : Bool) :
    List Nat → Bool → Nat → Option Nat → Nat × Option Nat
  | [], _, last, retip => (last, retip)
  | ip :: rest, prev, last, retip =>
    match findHunk info dir ip with
    | some h => verifyGo info dir paranoid rest true (hunkAddr dir h) retip
    | none =>
      if prev then
        if paranoid then verifyGo info dir paranoid rest false last (some ip)
        else (last, some ip)
      else verifyGo info dir paranoid rest prev last retip

/-- `object_patch_verify_safety_single` (kpatch_user.c:394-438): returns the
`last` unsafe address (0 when the stack is safe) and the stored `*retip`. -/
def object_patch_verify_safety_single (info : List KpatchInfo) (dir : Direction)
    (paranoid : Bool) (stack : List Nat) : Nat × Option Nat :=
  verifyGo info dir paranoid stack false 0 none

/-- A frame `ip` lies in some (non-new) hunk of `info[]`. -/
def inAny (info : List KpatchInfo) (dir : Direction) (ip : Nat) : Bool :=
  (findHunk info dir ip).isSome

/-- The unsafe address recorded for a frame: the `daddr`/`saddr` of the first
matching hunk (0 when the frame is outside all hunks). -/
def frameAddr (info : List KpatchInfo) (dir : Direction) (ip : Nat) : Nat :=
  match findHunk info dir ip with
  | some h => hunkAddr dir h
  | none => 0

/-- No adjacent pair of frames goes from inside a hunk to outside all hunks. -/
def noTrans (info : List KpatchInfo) (dir : Direction) : List Nat → Bool
  | a :: b :: rest =>
    !(inAny info dir a && !inAny info dir b) && noTrans info dir (b :: rest)
  | _ => true

theorem noTrans_cons (info : List KpatchInfo) (dir : Direction) (x : Nat)
    (l : List Nat) (hl : l ≠ []) :
    noTrans info dir (x :: l)
      = (!(inAny info dir x && !inAny info dir (l.headD 0)) && noTrans info dir l) := by
  cases l with
  | nil => exact absurd rfl hl
  | cons y ys => rfl

theorem verifyGo_safe (info : List KpatchInfo) (dir : Direction) :
    ∀ (l : List Nat) (last : Nat) (r : Option Nat),
      (∀ ip ∈ l, inAny info dir ip = false) →
      verifyGo info dir false l false last r = (last, r) := by
  intro l
  induction l with
  | nil => intro last r _; rfl
  | cons ip rest ih =>
    intro last r h
    have hip : inAny info dir ip = false := h ip (List.mem_cons_self ip rest)
    have hf : findHunk info dir ip = none := by
      rw [inAny] at hip
      exact Option.not_isSome_iff_eq_none.mp (by simp [hip])
    simp only [verifyGo, hf]
    exact ih last r (fun x hx => h x (List.mem_cons_of_mem ip hx))

theorem verifyGo_stop (info : List KpatchInfo) (dir : Direction) :
    ∀ (pre : List Nat) (a b : Nat) (post : List Nat) (p : Bool) (last : Nat)
      (r : Option Nat),
      noTrans info dir (pre ++ [a]) = true →
      (p = true → inAny info dir ((pre ++ [a]).headD 0) = true) →
      inAny info dir a = true → inAny info dir b = false →
      verifyGo info dir false (pre ++ a :: b :: post) p last r
        = (frameAddr info dir a, some b) := by
  intro pre
  induction pre with
  | nil =>
    intro a b post p last r _ _ ha hb
    obtain ⟨h, hf⟩ : ∃ h, findHunk info dir a = some h := by
      rw [inAny] at ha
      exact Option.isSome_iff_exists.mp ha
    have hfb : findHunk info dir b = none := by
      rw [inAny] at hb
      exact Option.not_isSome_iff_eq_none.mp (by simp [hb])
    simp only [List.nil_append, verifyGo, hf, hfb, if_true]
    simp [frameAddr, hf]
  | cons j pre' ih =>
    intro a b post p last r hnt hp ha hb
    have hne : pre' ++ [a] ≠ [] := by simp
    have hnt' : noTrans info dir (j :: (pre' ++ [a])) = true := by
      simpa using hnt
    rw [noTrans_cons info dir j (pre' ++ [a]) hne] at hnt'
    obtain ⟨hpair, htail⟩ := by
      simpa [Bool.and_eq_true] using hnt'
    cases hj : findHunk info dir j with
    | some h =>
      have hjin : inAny info dir j = true := by simp [inAny, hj]
      have hhead : inAny info dir ((pre' ++ [a]).headD 0) = true := by
        rcases hpair with hpair
        rw [hjin] at hpair
        simpa using hpair
      simp only [List.cons_append, verifyGo, hj]
      exact ih a b post true (hunkAddr dir h) r htail (fun _ => hhead) ha hb
    | none =>
      have hjout : inAny info dir j = false := by simp [inAny, hj]
      have hpf : p = false := by
        cases p with
        | false => rfl
        | true =>
          have := hp rfl
          simp only [List.cons_append, List.headD_cons] at this
          rw [hjout] at this
          exact absurd this (by simp)
      subst hpf
      simp only [List.cons_append, verifyGo, hj, if_neg (by simp : ¬ false = true)]
      exact ih a b post false last r htail (fun hx => absurd hx (by simp)) ha hb

theorem verifyGo_noStop (info : List KpatchInfo) (dir : Direction) :
    ∀ (l : List Nat) (p : Bool) (last : Nat) (r : Option Nat),
      noTrans info dir l = true →
      (p = true → inAny info dir (l.headD 0) = true) →
      (∃ ip ∈ l, inAny info dir ip = true) →
      verifyGo info dir false l p last r
        = (frameAddr info dir
             ((l.filter (fun ip => inAny info dir ip)).getLastD 0), r) := by
  intro l
  induction l with
  | nil =>
    intro p last r _ _ hex
    obtain ⟨ip, hm, _⟩ := hex
    exact absurd hm (List.not_mem_nil ip)
  | cons ip rest ih =>
    intro p last r hnt hp hex
    cases hf : findHunk info dir ip with
    | some h =>
      have hin : inAny info dir ip = true := by simp [inAny, hf]
      by_cases hrest : rest = []
      · subst hrest
        simp only [verifyGo, hf]
        simp [List.filter, hin, frameAddr, hf]
      · have hne : rest ≠ [] := hrest
        have hnt' := hnt
        rw [noTrans_cons info dir ip rest hne] at hnt'
        obtain ⟨hpair, htail⟩ := by
          simpa [Bool.and_eq_true] using hnt'
        have hheadin : inAny info dir (rest.headD 0) = true := by
          rcases hpair with hpair
          rw [hin] at hpair
          simpa using hpair
        have hexr : ∃ y ∈ rest, inAny info dir y = true := by
          obtain ⟨x, rest', hxr⟩ := List.exists_cons_of_ne_nil hne
          refine ⟨rest.headD 0, ?_, hheadin⟩
          rw [hxr]
          simp [List.headD]
        have hfilne : rest.filter (fun y => inAny info dir y) ≠ [] := by
          obtain ⟨y, hy, hyin⟩ := hexr
          intro hnil
          have hmemf : y ∈ rest.filter (fun z => inAny info dir z) := by
            rw [List.mem_filter]
            exact ⟨hy, hyin⟩
          rw [hnil] at hmemf
          exact absurd hmemf (List.not_mem_nil y)
        simp only [verifyGo, hf]
        rw [ih true (hunkAddr dir h) r htail (fun _ => hheadin) hexr]
        have hfil : (ip :: rest).filter (fun y => inAny info dir y)
            = ip :: rest.filter (fun y => inAny info dir y) := by
          simp [List.filter, hin]
        rw [hfil]
        cases hrf : rest.filter (fun y => inAny info dir y) with
        | nil => exact absurd hrf hfilne
        | cons z zs => simp [List.getLastD_cons]
    | none =>
      have hout : inAny info dir ip = false := by simp [inAny, hf]
      have hpf : p = false := by
        cases p with
        | false => rfl
        | true =>
          have := hp rfl
          simp only [List.headD_cons] at this
          rw [hout] at this
          exact absurd this (by simp)
      subst hpf
      have hexr : ∃ y ∈ rest, inAny info dir y = true := by
        obtain ⟨y, hy, hyin⟩ := hex
        cases List.mem_cons.mp hy with
        | inl heq =>
          subst heq
          rw [hout] at hyin
          exact absurd hyin (by simp)
        | inr hmem => exact ⟨y, hmem, hyin⟩
      have hne : rest ≠ [] := by
        obtain ⟨y, hy, _⟩ := hexr
        intro hnil
        rw [hnil] at hy
        exact absurd hy (List.not_mem_nil y)
      have hnt' := hnt
      rw [noTrans_cons info dir ip rest hne] at hnt'
      obtain ⟨_, htail⟩ := by
        simpa [Bool.and_eq_true] using hnt'
      simp only [verifyGo, hf, if_neg (by simp : ¬ false = true)]
      rw [ih false last r htail (fun hx => absurd hx (by simp)) hexr]
      congr 2
      simp [List.filter, hout]

/-- C3: behaviour of `object_patch_verify_safety_single` in non-paranoid mode.
If no frame's `ip` lies in any non-new hunk's range the result is `(0, none)`
(safe).  If the walk reaches a first frame `b` that follows an in-hunk frame
`a` and is itself outside all hunks, the result is the `daddr` (APPLY) /
`saddr` (UNAPPLY) of `a` — the most recently observed in-hunk frame — with
`retip` set to `b`'s `ip`, and the walk stops there: any frames past `b` are
ignored.  If some frame is in a hunk but no such transition occurs, the result
is the address of the last in-hunk frame, with no `retip`. -/
theorem verify_safety_single_characterization (info : List KpatchInfo)
    (dir : Direction) :
    (∀ stack : List Nat, (∀ ip ∈ stack, inAny info dir ip = false) →
       object_patch_verify_safety_single info dir false stack = (0, none)) ∧
    (∀ (pre : List Nat) (a b : Nat) (post : List Nat),
       noTrans info dir (pre ++ [a]) = true →
       inAny info dir a = true → inAny info dir b = false →
       object_patch_verify_safety_single info dir false (pre ++ a :: b :: post)
           = (frameAddr info dir a, some b) ∧
       object_patch_verify_safety_single info dir false (pre ++ a :: b :: post)
           = object_patch_verify_safety_single info dir false (pre ++ [a, b])) ∧
    (∀ stack : List Nat,
       noTrans info dir stack = true →
       (∃ ip ∈ stack, inAny info dir ip = true) →
       object_patch_verify_safety_single info dir false stack
           = (frameAddr info dir
                ((stack.filter (fun ip => inAny info dir ip)).getLastD 0), none)) := by
  refine ⟨?_, ?_, ?_⟩
  · intro stack h
    exact verifyGo_safe info dir stack 0 none h
  · intro pre a b post hnt ha hb
    have h1 := verifyGo_stop info dir pre a b post false 0 none hnt
      (fun hx => absurd hx (by simp)) ha hb
    have h2 := verifyGo_stop info dir pre a b [] false 0 none hnt
      (fun hx => absurd hx (by simp)) ha hb
    constructor
    · exact h1
    · rw [object_patch_verify_safety_single, object_patch_verify_safety_single,
        h1, h2]
  · intro stack hnt hex
    exact verifyGo_noStop info dir stack false 0 none hnt
      (fun hx => absurd hx (by simp)) hex

/-- C3 witness: the characterization evaluated at a concrete hunk table and
stack `[105, 50, 77]` — frame 105 lies in `[100,116)`, frame 50 leaves the
hunks (so the walk stops with unsafe address 100 and retip 50), and frame 77
is never examined. -/
theorem verify_safety_single_characterization_witness :
    object_patch_verify_safety_single [⟨100, 16, 4296, 32, 0⟩] Direction.apply false
        ([] ++ 105 :: 50 :: [77])
      = (frameAddr [⟨100, 16, 4296, 32, 0⟩] Direction.apply 105, some 50) :=
  ((verify_safety_single_characterization [⟨100, 16, 4296, 32, 0⟩]
      Direction.apply).2.1 [] 105 50 [77] (by decide) (by decide) (by decide)).1

/-! ## C7: coroutine failures are terminal -/

/-- `KPATCH_CORO_STACK_UNSAFE` (1 << 20). -/
def KPATCH_CORO_STACK_FLAG : Nat := 2 ^ 20

/-- A stack fails the single-stack check when `object_patch_verify_safety_single`
returns a nonzero address. -/
def stackFailed (info : List KpatchInfo) (dir : Direction) (stack : List Nat) : Bool :=
  decide ((object_patch_verify_safety_single info dir false stack).1 ≠ 0)

/-- Number of failed stacks in a list (the `failed++` counting of
`patch_verify_safety`). -/
def countFailed (info : List KpatchInfo) (dir : Direction)
    (sts : List (List Nat)) : Nat :=
  (sts.filter (fun st => stackFailed info dir st)).length

/-- `patch_verify_safety` (kpatch_user.c:442-519): walk every coroutine stack
first; any coroutine failure returns the coroutine failed count with
`KPATCH_CORO_STACK_UNSAFE` OR-ed in, without examining the threads.  Otherwise
walk the thread stacks and return the thread failed count.  The unwind-context
creation errors of the C code are external-collaborator failures, not part of
the safety decision, and are not modelled. -/
def patch_verify_safety (info : List KpatchInfo) (dir : Direction)
    (coros threads : List (List Nat)) : Nat :=
  let coroFailed := countFailed info dir coros
  if coroFailed ≠ 0 then coroFailed ||| KPATCH_CORO_STACK_FLAG
  else countFailed info dir threads

/-- `patch_ensure_safety` (kpatch_user.c:537-576).  `advRes` and `attachRes`
are the results of `kpatch_ptrace_execute_until` and
`kpatch_process_attach` (external collaborators); `threads2` are the thread
stacks after the advance.  Returns the `-1`/`0` result and whether the
advance-and-retry path was taken. -/
def patch_ensure_safety (info : List KpatchInfo) (dir : Direction)
    (coros threads : List (List Nat)) (advRes attachRes : Int)
    (threads2 : List (List Nat)) : Int × Bool :=
  let ret := patch_verify_safety info dir coros threads
  if ret ≠ 0 ∧ (ret &&& KPATCH_CORO_STACK_FLAG) = 0 then
    let r2 : Int := if advRes = 0 then attachRes else advRes
    let r3 : Int :=
      if r2 = 0 then (patch_verify_safety info dir coros threads2 : Int) else r2
    (if r3 ≠ 0 then -1 else 0, true)
  else
    (if ret ≠ 0 then -1 else 0, false)

/-- C7: if any coroutine stack fails the safety check, `patch_verify_safety`
returns the failed count with the `KPATCH_CORO_STACK_UNSAFE` bit OR-ed in and
`patch_ensure_safety` fails the object immediately (result `-1`) without
taking the execute-until/re-check path; conversely the advance-and-retry path
is taken only when all coroutines are safe and some thread stack failed. -/
theorem coro_failure_terminal (info : List KpatchInfo) (dir : Direction)
    (coros threads : List (List Nat)) (advRes attachRes : Int)
    (threads2 : List (List Nat)) :
    (countFailed info dir coros ≠ 0 →
       patch_verify_safety info dir coros threads
         = (countFailed info dir coros ||| KPATCH_CORO_STACK_FLAG) ∧
       patch_ensure_safety info dir coros threads advRes attachRes threads2
         = (-1, false)) ∧
    ((patch_ensure_safety info dir coros threads advRes attachRes threads2).2 = true →
       countFailed info dir coros = 0 ∧ countFailed info dir threads ≠ 0) := by
  constructor
  · intro hc
    have hv : patch_verify_safety info dir coros threads
        = (countFailed info dir coros ||| KPATCH_CORO_STACK_FLAG) := by
      simp [patch_verify_safety, hc]
    refine ⟨hv, ?_⟩
    have hbit : ((countFailed info dir coros ||| KPATCH_CORO_STACK_FLAG)
        &&& KPATCH_CORO_STACK_FLAG) ≠ 0 := by
      simpa [KPATCH_CORO_STACK_FLAG] using
        land_lor_pow_ne_zero (countFailed info dir coros) 20
    have hnz : (countFailed info dir coros ||| KPATCH_CORO_STACK_FLAG) ≠ 0 := by
      simpa [KPATCH_CORO_STACK_FLAG] using
        lor_pow_ne_zero (countFailed info dir coros) 20
    have hnc : ¬ ((countFailed info dir coros ||| KPATCH_CORO_STACK_FLAG) ≠ 0 ∧
        ((countFailed info dir coros ||| KPATCH_CORO_STACK_FLAG)
          &&& KPATCH_CORO_STACK_FLAG) = 0) :=
      fun hand => hbit hand.2
    rw [patch_ensure_safety]
    rw [hv]
    rw [if_neg hnc]
    simp [hnz]
  · intro htaken
    rw [patch_ensure_safety] at htaken
    by_cases hcond : patch_verify_safety info dir coros threads ≠ 0 ∧
        (patch_verify_safety info dir coros threads &&& KPATCH_CORO_STACK_FLAG) = 0
    · obtain ⟨hne, hland⟩ := hcond
      by_cases hc : countFailed info dir coros = 0
      · refine ⟨hc, ?_⟩
        have : patch_verify_safety info dir coros threads
            = countFailed info dir threads := by
          simp [patch_verify_safety, hc]
        rw [this] at hne
        exact hne
      · exfalso
        have : patch_verify_safety info dir coros threads
            = (countFailed info dir coros ||| KPATCH_CORO_STACK_FLAG) := by
          simp [patch_verify_safety, hc]
        rw [this] at hland
        have hbit2 : ((countFailed info dir coros ||| KPATCH_CORO_STACK_FLAG)
            &&& KPATCH_CORO_STACK_FLAG) ≠ 0 := by
          simpa [KPATCH_CORO_STACK_FLAG] using
            land_lor_pow_ne_zero (countFailed info dir coros) 20
        exact hbit2 hland
    · rw [if_neg hcond] at htaken
      simp at htaken

/-- C7 witness: one coroutine whose saved `ip = 105` lies inside the hunk
`[100,116)`; the verifier reports `1 ||| (1 << 20)` and ensure-safety fails
without the retry path. -/
theorem coro_failure_terminal_witness :
    patch_verify_safety [⟨100, 16, 4296, 32, 0⟩] Direction.apply [[105]] [[50]]
      = (countFailed [⟨100, 16, 4296, 32, 0⟩] Direction.apply [[105]]
          ||| KPATCH_CORO_STACK_FLAG) ∧
    patch_ensure_safety [⟨100, 16, 4296, 32, 0⟩] Direction.apply [[105]] [[50]]
        0 0 [[50]]
      = (-1, false) :=
  (coro_failure_terminal [⟨100, 16, 4296, 32, 0⟩] Direction.apply [[105]] [[50]]
      0 0 [[50]]).1 (by decide)

/-! ## C5: version replacement (`object_unapply_old_patch`) -/

/-- The slice of `struct object_file` that `object_unapply_old_patch` reads:
whether the object is itself a mapped patch, the `user_level` of the installed
patch blob (`applied_patch->kpfile.patch->user_level`, absent when no patch is
applied) and the `user_level` of the storage blob (`skpfile->patch->user_level`,
absent when no storage patch matched). -/
structure LevelObj where
  isPatch : Bool
  appliedLevel : Option Nat
  storageLevel : Option Nat
deriving DecidableEq

/-- Observable actions of the version-replacement path. -/
inductive LvlEvent where
  | levelReport (applied storage : Nat)
  | replaceReport (applied storage : Nat)
  | unapplyOldCall (check_flag : Bool)
  | alreadyReport
  | installedBlob (level : Nat)
deriving DecidableEq

/-- `object_unapply_old_patch` (kpatch_user.c:728-763).  `unapplyOk` is the
result of the inner `object_unapply_patch` call (an external effect at this
level).  Returns (result, object state, emitted reports/calls): on success
the C code clears `o->applied_patch`, `o->info`, `o->ninfo`. -/
def object_unapply_old_patch (o : LevelObj) (unapplyOk : Bool) :
    Int × LevelObj × List LvlEvent :=
  match o.storageLevel with
  | none => (0, o, [])
  | some sl =>
    if o.isPatch then (0, o, [])
    else
      match o.appliedLevel with
      | none => (0, o, [])
      | some al =>
        if sl ≤ al then (1, o, [.levelReport al sl])
        else if unapplyOk then
          (0, { o with appliedLevel := none },
           [.replaceReport al sl, .unapplyOldCall false])
        else (-1, o, [.replaceReport al sl, .unapplyOldCall false])

/-- `object_apply_patch` (kpatch_user.c:639-723) at the version-replacement
level of abstraction: skip when no storage patch or the object is a patch,
report and skip when a patch is already applied, otherwise install.
`duplicate_kp_file` copies the storage blob verbatim and the installer never
touches `user_level`, so the installed blob's `user_level` equals the storage
blob's. -/
def object_apply_patch_lvl (o : LevelObj) (applyOk : Bool) :
    Int × LevelObj × List LvlEvent :=
  match o.storageLevel with
  | none => (0, o, [])
  | some sl =>
    if o.isPatch then (0, o, [])
    else
      match o.appliedLevel with
      | some _ => (0, o, [.alreadyReport])
      | none =>
        if applyOk then (1, { o with appliedLevel := some sl }, [.installedBlob sl])
        else (-1, o, [])

/-- C5: with a patch at level `al` applied and a storage patch at level `sl`
available, `object_unapply_old_patch` skips with only the level report and an
unchanged object when `sl ≤ al` (not strictly greater); when `al < sl` it
reports the replacement, cancels the installed patch with `check_flag = false`,
and a subsequent successful apply installs the storage blob, so the installed
level `sl` is strictly greater than the previous level `al`. -/
theorem object_unapply_old_patch_levels (o : LevelObj) (al sl : Nat) (ok : Bool)
    (hp : o.isPatch = false) (ha : o.appliedLevel = some al)
    (hs : o.storageLevel = some sl) :
    (sl ≤ al → object_unapply_old_patch o ok = (1, o, [.levelReport al sl])) ∧
    (al < sl →
      (object_unapply_old_patch o ok).2.2
          = [.replaceReport al sl, .unapplyOldCall false] ∧
      (ok = true →
        (object_unapply_old_patch o ok).1 = 0 ∧
        (object_apply_patch_lvl (object_unapply_old_patch o ok).2.1 true).2.1.appliedLevel
            = some sl ∧
        al < sl)) := by
  constructor
  · intro hle
    simp [object_unapply_old_patch, hs, hp, ha, hle]
  · intro hlt
    have hnle : ¬ sl ≤ al := by omega
    constructor
    · cases ok with
      | true => simp [object_unapply_old_patch, hs, hp, ha, hnle]
      | false => simp [object_unapply_old_patch, hs, hp, ha, hnle]
    · intro hok
      subst hok
      refine ⟨by simp [object_unapply_old_patch, hs, hp, ha, hnle], ?_, hlt⟩
      simp [object_unapply_old_patch, hs, hp, ha, hnle, object_apply_patch_lvl]

/-- C5 witness: replacing level 1 with level 2. -/
theorem object_unapply_old_patch_levels_witness :
    (object_unapply_old_patch ⟨false, some 1, some 2⟩ true).2.2
        = [.replaceReport 1 2, .unapplyOldCall false] ∧
    (true = true →
      (object_unapply_old_patch ⟨false, some 1, some 2⟩ true).1 = 0 ∧
      (object_apply_patch_lvl
          (object_unapply_old_patch ⟨false, some 1, some 2⟩ true).2.1 true).2.1.appliedLevel
          = some 2 ∧
      1 < 2) :=
  (object_unapply_old_patch_levels ⟨false, some 1, some 2⟩ 1 2 true rfl rfl rfl).2
    (by decide)

/-! ## C6 and C8: the per-process apply transaction and its summary -/

/-- One object as seen by the `kpatch_apply_patches` loop: the results its
subcalls would produce (`object_unapply_old_patch`, `object_apply_patch`) and
the number of (non-new) hunks a successful apply installs. -/
structure OrchObj where
  unapplyOldRes : Int
  applyRes : Int
  nhunks : Nat
deriving DecidableEq

/-- Calls issued by `kpatch_apply_patches`, by object position. -/
inductive OrchEvent where
  | unapplyOld (idx : Nat)
  | applyPatch (idx : Nat)
  | rollback (idx : Nat) (check_flag : Bool)
deriving DecidableEq

def isRollback : OrchEvent → Bool
  | .rollback _ _ => true
  | _ => false

/-- The loop of `kpatch_apply_patches` (kpatch_user.c:765-796): per object run
`object_unapply_old_patch` (negative result breaks the loop, returning the
`applied` counter); run `object_apply_patch` (negative result jumps to the
`unpatch` label: cancel that object with `check_flag = 1` and return `-1`);
count the objects whose apply returned nonzero. -/
def kpatch_apply_patches_go : List OrchObj → Nat → Int → Int × List OrchEvent
  | [], _, applied => (applied, [])
  | o :: rest, idx, applied =>
    if o.unapplyOldRes < 0 then (applied, [.unapplyOld idx])
    else if o.applyRes < 0 then
      (-1, [.unapplyOld idx, .applyPatch idx, .rollback idx true])
    else
      let applied2 := if o.applyRes ≠ 0 then applied + 1 else applied
      let r := kpatch_apply_patches_go rest (idx + 1) applied2
      (r.1, .unapplyOld idx :: .applyPatch idx :: r.2)

/-- `kpatch_apply_patches` with its event trace. -/
def kpatch_apply_patches (objs : List OrchObj) : Int × List OrchEvent :=
  kpatch_apply_patches_go objs 0 0

theorem kpatch_apply_patches_go_fail (o : OrchObj) (post : List OrchObj)
    (ho1 : 0 ≤ o.unapplyOldRes) (ho2 : o.applyRes < 0) :
    ∀ (pre : List OrchObj) (idx : Nat) (applied : Int),
      (∀ p ∈ pre, 0 ≤ p.unapplyOldRes ∧ 0 ≤ p.applyRes) →
      (kpatch_apply_patches_go (pre ++ o :: post) idx applied).1 = -1 ∧
      ((kpatch_apply_patches_go (pre ++ o :: post) idx applied).2.filter isRollback
        = [.rollback (idx + pre.length) true]) := by
  intro pre
  induction pre with
  | nil =>
    intro idx applied _
    simp only [List.nil_append, kpatch_apply_patches_go,
      if_neg (by omega : ¬ o.unapplyOldRes < 0), if_pos ho2]
    simp [isRollback, List.filter]
  | cons p pre' ih =>
    intro idx applied hpre
    obtain ⟨hp1, hp2⟩ := hpre p (List.mem_cons_self p pre')
    have hpre2 : ∀ q ∈ pre', 0 ≤ q.unapplyOldRes ∧ 0 ≤ q.applyRes :=
      fun q hq => hpre q (List.mem_cons_of_mem p hq)
    have hrec := ih (idx + 1)
      (if p.applyRes ≠ 0 then applied + 1 else applied) hpre2
    have hgo : kpatch_apply_patches_go ((p :: pre') ++ o :: post) idx applied
        = ((kpatch_apply_patches_go (pre' ++ o :: post) (idx + 1)
             (if p.applyRes ≠ 0 then applied + 1 else applied)).1,
           OrchEvent.unapplyOld idx :: OrchEvent.applyPatch idx ::
             (kpatch_apply_patches_go (pre' ++ o :: post) (idx + 1)
               (if p.applyRes ≠ 0 then applied + 1 else applied)).2) := by
      conv_lhs => rw [List.cons_append]
      rw [kpatch_apply_patches_go]
      rw [if_neg (show ¬ p.unapplyOldRes < 0 by omega),
        if_neg (show ¬ p.applyRes < 0 by omega)]
    rw [hgo]
    refine ⟨hrec.1, ?_⟩
    show List.filter isRollback
        (OrchEvent.unapplyOld idx :: OrchEvent.applyPatch idx ::
          (kpatch_apply_patches_go (pre' ++ o :: post) (idx + 1)
            (if p.applyRes ≠ 0 then applied + 1 else applied)).2)
      = [OrchEvent.rollback (idx + (p :: pre').length) true]
    rw [List.filter_cons_of_neg (by simp [isRollback]),
      List.filter_cons_of_neg (by simp [isRollback]), hrec.2]
    have hidx : idx + 1 + pre'.length = idx + (p :: pre').length := by
      simp only [List.length_cons]
      omega
    rw [hidx]

/-- C6: in a per-process apply run where every earlier object succeeds and one
object's apply fails, `kpatch_apply_patches` returns `-1`, and the only
`object_unapply_patch` rollback issued is for exactly the failing object, with
`check_flag = true`; earlier objects are never rolled back (their hunks stay
installed). -/
theorem kpatch_apply_patches_partial_failure (pre : List OrchObj) (o : OrchObj)
    (post : List OrchObj)
    (hpre : ∀ p ∈ pre, 0 ≤ p.unapplyOldRes ∧ 0 ≤ p.applyRes)
    (ho1 : 0 ≤ o.unapplyOldRes) (ho2 : o.applyRes < 0) :
    (kpatch_apply_patches (pre ++ o :: post)).1 = -1 ∧
    (kpatch_apply_patches (pre ++ o :: post)).2.filter isRollback
      = [.rollback pre.length true] := by
  have h := kpatch_apply_patches_go_fail o post ho1 ho2 pre 0 0 hpre
  refine ⟨h.1, ?_⟩
  rw [kpatch_apply_patches, h.2]
  simp

/-- C6 witness: three objects, the middle one fails its apply. -/
theorem kpatch_apply_patches_partial_failure_witness :
    (kpatch_apply_patches ([⟨0, 1, 1⟩] ++ ⟨0, -1, 0⟩ :: [⟨0, 1, 1⟩])).1 = -1 ∧
    (kpatch_apply_patches ([⟨0, 1, 1⟩] ++ ⟨0, -1, 0⟩ :: [⟨0, 1, 1⟩])).2.filter isRollback
      = [.rollback (List.length [(⟨0, 1, 1⟩ : OrchObj)]) true] :=
  kpatch_apply_patches_partial_failure [⟨0, 1, 1⟩] ⟨0, -1, 0⟩ [⟨0, 1, 1⟩]
    (by decide) (by decide) (by decide)

/-- The results of the pipeline stages of `process_patch` that precede
`kpatch_apply_patches` (kpatch_user.c:804-872): init, attach, library load,
object mapping, storage lookup (the count of objects with patches), coroutine
discovery; then the objects of the apply loop. -/
structure ProcScript where
  initRes : Int
  attachRes : Int
  loadLibsRes : Int
  mapRes : Int
  lookupRes : Int
  coroRes : Int
  objs : List OrchObj
deriving DecidableEq

/-- The summary line printed by `process_patch`. -/
inductive PatchMsg where
  | failedMsg
  | noPatchesMsg
  | appliedMsg (n : Int)
deriving DecidableEq

/-- `process_patch` (kpatch_user.c:804-873): run the stages in order, stopping
at the first failure (`lookup <= 0` also stops); then print: negative `ret`
reports failure and is returned as is; `ret = 0` prints the no-patches line
and returns 0; positive `ret` prints the applied line with the count and the
function then sets `ret = 0` and returns 0. -/
def process_patch (s : ProcScript) : Int × PatchMsg :=
  let ret : Int :=
    if s.initRes < 0 then s.initRes
    else if s.attachRes < 0 then s.attachRes
    else if s.loadLibsRes < 0 then s.loadLibsRes
    else if s.mapRes < 0 then s.mapRes
    else if s.lookupRes ≤ 0 then s.lookupRes
    else if s.coroRes < 0 then s.coroRes
    else (kpatch_apply_patches s.objs).1
  if ret < 0 then (ret, .failedMsg)
  else if ret = 0 then (0, .noPatchesMsg)
  else (0, .appliedMsg ret)

/-- Follows the spec's words for C8: the number of hunks installed by a run in
which no object fails — the sum of the hunk counts of the objects whose apply
installed a patch. -/
def hunksInstalled : List OrchObj → Nat
  | [] => 0
  | o :: rest =>
    if o.unapplyOldRes < 0 then 0
    else if o.applyRes < 0 then 0
    else (if o.applyRes ≠ 0 then o.nhunks else 0) + hunksInstalled rest

/-- The `applied` counter of `kpatch_apply_patches` on an all-successful run:
the number of objects whose apply returned nonzero. -/
def objectsPatched : List OrchObj → Int
  | [] => 0
  | o :: rest => (if o.applyRes ≠ 0 then 1 else 0) + objectsPatched rest

/-- C8 counterexample: a run with one object carrying two hunks succeeds; the
per-PID result is `0` — not the positive number of hunks installed (2) — and
the success message reports `1` (the object count), not `2`. -/
theorem process_patch_count_mismatch :
    hunksInstalled (ProcScript.mk 0 0 0 0 1 0 [⟨0, 1, 2⟩]).objs = 2 ∧
    process_patch (ProcScript.mk 0 0 0 0 1 0 [⟨0, 1, 2⟩]) = (0, .appliedMsg 1) ∧
    (process_patch (ProcScript.mk 0 0 0 0 1 0 [⟨0, 1, 2⟩])).1
      ≠ (hunksInstalled (ProcScript.mk 0 0 0 0 1 0 [⟨0, 1, 2⟩]).objs : Int) ∧
    ¬ 0 < (process_patch (ProcScript.mk 0 0 0 0 1 0 [⟨0, 1, 2⟩])).1 := by
  decide

theorem objectsPatched_nonneg : ∀ objs : List OrchObj, 0 ≤ objectsPatched objs := by
  intro objs
  induction objs with
  | nil => simp [objectsPatched]
  | cons o rest ih =>
    simp only [objectsPatched]
    by_cases h : o.applyRes ≠ 0 <;> simp [h] <;> omega

theorem kpatch_apply_patches_go_ok :
    ∀ (objs : List OrchObj) (idx : Nat) (applied : Int),
      (∀ o ∈ objs, 0 ≤ o.unapplyOldRes ∧ 0 ≤ o.applyRes) →
      (kpatch_apply_patches_go objs idx applied).1 = applied + objectsPatched objs := by
  intro objs
  induction objs with
  | nil => intro idx applied _; simp [kpatch_apply_patches_go, objectsPatched]
  | cons o rest ih =>
    intro idx applied h
    obtain ⟨h1, h2⟩ := h o (List.mem_cons_self o rest)
    have hrest : ∀ q ∈ rest, 0 ≤ q.unapplyOldRes ∧ 0 ≤ q.applyRes :=
      fun q hq => h q (List.mem_cons_of_mem o hq)
    simp only [kpatch_apply_patches_go,
      if_neg (by omega : ¬ o.unapplyOldRes < 0),
      if_neg (by omega : ¬ o.applyRes < 0), objectsPatched]
    rw [ih (idx + 1) (if o.applyRes ≠ 0 then applied + 1 else applied) hrest]
    by_cases hz : o.applyRes ≠ 0
    · rw [if_pos hz, if_pos hz]
      omega
    · rw [if_neg hz, if_neg hz]
      omega

/-- C8 amended: the per-PID summary of `process_patch` is: negative result
with a failure report on hard failure; result `0` with the no-patches report
when no matching patches were found (or nothing was applied); and on success
also result `0`, with the success message reporting the number of *objects*
patched — the count the message labels "patch hunk(s)" — never the positive
number of hunks. -/
theorem process_patch_summary (s : ProcScript)
    (hinit : 0 ≤ s.initRes) (hatt : 0 ≤ s.attachRes) (hload : 0 ≤ s.loadLibsRes)
    (hmap : 0 ≤ s.mapRes) (hcoro : 0 ≤ s.coroRes)
    (hobjs : ∀ o ∈ s.objs, 0 ≤ o.unapplyOldRes ∧ 0 ≤ o.applyRes) :
    (s.lookupRes < 0 → process_patch s = (s.lookupRes, .failedMsg)) ∧
    (s.lookupRes = 0 → process_patch s = (0, .noPatchesMsg)) ∧
    (0 < s.lookupRes →
      (kpatch_apply_patches s.objs).1 = objectsPatched s.objs ∧
      (objectsPatched s.objs = 0 → process_patch s = (0, .noPatchesMsg)) ∧
      (0 < objectsPatched s.objs →
        process_patch s = (0, .appliedMsg (objectsPatched s.objs)))) := by
  have happ : (kpatch_apply_patches s.objs).1 = objectsPatched s.objs := by
    rw [kpatch_apply_patches, kpatch_apply_patches_go_ok s.objs 0 0 hobjs]
    omega
  refine ⟨?_, ?_, ?_⟩
  · intro hlk
    simp only [process_patch]
    rw [if_neg (show ¬ s.initRes < 0 by omega),
      if_neg (show ¬ s.attachRes < 0 by omega),
      if_neg (show ¬ s.loadLibsRes < 0 by omega),
      if_neg (show ¬ s.mapRes < 0 by omega),
      if_pos (show s.lookupRes ≤ 0 by omega)]
    rw [if_pos (show s.lookupRes < 0 from hlk)]
  · intro hlk
    simp only [process_patch]
    rw [if_neg (show ¬ s.initRes < 0 by omega),
      if_neg (show ¬ s.attachRes < 0 by omega),
      if_neg (show ¬ s.loadLibsRes < 0 by omega),
      if_neg (show ¬ s.mapRes < 0 by omega),
      if_pos (show s.lookupRes ≤ 0 by omega)]
    rw [if_neg (show ¬ s.lookupRes < 0 by omega),
      if_pos (show s.lookupRes = 0 from hlk)]
  · intro hlk
    have hnn := objectsPatched_nonneg s.objs
    refine ⟨happ, ?_, ?_⟩
    · intro hzero
      simp only [process_patch]
      rw [if_neg (show ¬ s.initRes < 0 by omega),
        if_neg (show ¬ s.attachRes < 0 by omega),
        if_neg (show ¬ s.loadLibsRes < 0 by omega),
        if_neg (show ¬ s.mapRes < 0 by omega),
        if_neg (show ¬ s.lookupRes ≤ 0 by omega),
        if_neg (show ¬ s.coroRes < 0 by omega), happ, hzero]
      simp
    · intro hpos
      simp only [process_patch]
      rw [if_neg (show ¬ s.initRes < 0 by omega),
        if_neg (show ¬ s.attachRes < 0 by omega),
        if_neg (show ¬ s.loadLibsRes < 0 by omega),
        if_neg (show ¬ s.mapRes < 0 by omega),
        if_neg (show ¬ s.lookupRes ≤ 0 by omega),
        if_neg (show ¬ s.coroRes < 0 by omega), happ]
      rw [if_neg (show ¬ objectsPatched s.objs < 0 by omega),
        if_neg (show ¬ objectsPatched s.objs = 0 by omega)]

/-- C8 amended-theorem witness: one object with two hunks, successfully
applied: result 0 with the message counting 1 object. -/
theorem process_patch_summary_witness :
    (kpatch_apply_patches (ProcScript.mk 0 0 0 0 1 0 [⟨0, 1, 2⟩]).objs).1
        = objectsPatched (ProcScript.mk 0 0 0 0 1 0 [⟨0, 1, 2⟩]).objs ∧
    (objectsPatched (ProcScript.mk 0 0 0 0 1 0 [⟨0, 1, 2⟩]).objs = 0 →
      process_patch (ProcScript.mk 0 0 0 0 1 0 [⟨0, 1, 2⟩]) = (0, .noPatchesMsg)) ∧
    (0 < objectsPatched (ProcScript.mk 0 0 0 0 1 0 [⟨0, 1, 2⟩]).objs →
      process_patch (ProcScript.mk 0 0 0 0 1 0 [⟨0, 1, 2⟩])
        = (0, .appliedMsg (objectsPatched (ProcScript.mk 0 0 0 0 1 0 [⟨0, 1, 2⟩]).objs))) :=
  (process_patch_summary (ProcScript.mk 0 0 0 0 1 0 [⟨0, 1, 2⟩])
      (by decide) (by decide) (by decide) (by decide) (by decide) (by decide)).2.2
    (by decide)

/-! ## Directory storage: `storage_open_patch`, `storage_stat_patch`,
`storage_find_patch` and the build-id cache -/

/-- `PATCH_OPEN_ERROR` / `PATCH_NOT_FOUND` / `PATCH_FOUND` (kpatch_user.c:179-183). -/
def PATCH_OPEN_ERROR : Int := -1

def PATCH_NOT_FOUND : Int := 0

def PATCH_FOUND : Int := 1

/-- The on-disk file behind one path template for one build-id.  `size` is
`none` when the path does not exist (every stat failure is `ENOENT` here);
`openOk` is whether `kpatch_openat_file` succeeds on the present file
(modelled from the spec: the open/mmap helper of the external `kpatch_common`
returns 0 on success and -1 on failure); `verifyOk` is whether
`patch_file_verify` passes; `userLevel` is the `user_level` field inside the
blob. -/
structure FsFile where
  size : Option Nat
  openOk : Bool
  verifyOk : Bool
  userLevel : Nat

/-- The storage directory as seen through the two path templates
`"%s/latest/kpatch.bin"` (template 0) and `"%s.kpatch"` (template 1), plus the
`readlinkat` of `"<bid>/latest"` whose target is the decimal patch level. -/
structure Fs where
  tmpl0 : String → FsFile
  tmpl1 : String → FsFile
  linkLevel : String → Option Nat

/-- One template step of the open loop of `storage_open_patch`
(kpatch_user.c:193-206): `none` when `kpatch_openat_file` fails (the loop goes
on to the next template), `some (rv, size)` when it succeeds (the loop breaks;
`rv` is `PATCH_FOUND`, or -1 when `patch_file_verify` rejected the blob). -/
def tryOpenVerify (f : FsFile) : Option (Int × Nat) :=
  match f.size with
  | none => none
  | some s => if f.openOk then some (if f.verifyOk then PATCH_FOUND else -1, s) else none

/-- `storage_open_patch` (kpatch_user.c:185-222): probe the templates in
order; on a template-0 hit, `readlink_patchlevel` must succeed and its value
is stamped into the blob's `user_level`.  Returns (result, size, level). -/
def storage_open_patch (fs : Fs) (bid : String) : Int × Nat × Nat :=
  match tryOpenVerify (fs.tmpl0 bid) with
  | some (rv, s) =>
    if rv = PATCH_FOUND then
      match fs.linkLevel bid with
      | some lvl => (PATCH_FOUND, s, lvl)
      | none => (PATCH_OPEN_ERROR, 0, 0)
    else (rv, 0, 0)
  | none =>
    match tryOpenVerify (fs.tmpl1 bid) with
    | some (rv, s) => (rv, s, (fs.tmpl1 bid).userLevel)
    | none => (PATCH_OPEN_ERROR, 0, 0)

/-- `storage_stat_patch` (kpatch_user.c:224-253): `fstatat` the templates in
order and record `st_size`; a template-0 hit additionally requires
`readlink_patchlevel` to succeed (its value is checked but not stored).
Returns (result, size). -/
def storage_stat_patch (fs : Fs) (bid : String) : Int × Nat :=
  match (fs.tmpl0 bid).size with
  | some s =>
    match fs.linkLevel bid with
    | some _ => (PATCH_FOUND, s)
    | none => (PATCH_OPEN_ERROR, s)
  | none =>
    match (fs.tmpl1 bid).size with
    | some s => (PATCH_FOUND, s)
    | none => (PATCH_NOT_FOUND, 0)

/-- A node of the build-id cache tree (`struct kpatch_storage_patch`): the
key, the recorded `kpfile.size` (0 records "absent"), whether the blob data
was actually mapped and verified (`kpfile.patch != NULL`, true only via the
open path), and the recorded patch level. -/
structure CachedPatch where
  buildid : String
  size : Nat
  loaded : Bool
  patchlevel : Nat
deriving DecidableEq

/-- `rb_search_node` keyed by `cmp_buildid`. -/
def cacheLookup (st : List CachedPatch) (bid : String) : Option CachedPatch :=
  st.find? (fun p => p.buildid == bid)

/-- `storage_find_patch` (kpatch_user.c:261-318), directory storage.
`wantData` is whether the caller passed a non-NULL `pkpfile` (so the probe is
`storage_open_patch` rather than `storage_stat_patch`).  On a cache hit,
return `PATCH_FOUND` iff the cached size is positive, handing out the cached
record.  On a miss, probe the filesystem; a `PATCH_OPEN_ERROR` outcome is
returned without inserting anything (`free(patch); return rv;`), any other
outcome is inserted into the cache under the build-id.  Returns
(result, returned record reference, cache state). -/
def storage_find_patch (fs : Fs) (st : List CachedPatch) (bid : String)
    (wantData : Bool) : Int × Option CachedPatch × List CachedPatch :=
  match cacheLookup st bid with
  | some p =>
    ((if 0 < p.size then PATCH_FOUND else PATCH_NOT_FOUND),
     (if wantData then some p else none), st)
  | none =>
    if wantData then
      if (storage_open_patch fs bid).1 = PATCH_FOUND then
        (PATCH_FOUND,
         some ⟨bid, (storage_open_patch fs bid).2.1, true, (storage_open_patch fs bid).2.2⟩,
         ⟨bid, (storage_open_patch fs bid).2.1, true, (storage_open_patch fs bid).2.2⟩ :: st)
      else if (storage_open_patch fs bid).1 = PATCH_OPEN_ERROR then
        (PATCH_OPEN_ERROR, none, st)
      else ((storage_open_patch fs bid).1, none, ⟨bid, 0, false, 0⟩ :: st)
    else
      if (storage_stat_patch fs bid).1 = PATCH_OPEN_ERROR then
        (PATCH_OPEN_ERROR, none, st)
      else if (storage_stat_patch fs bid).1 = PATCH_FOUND then
        (PATCH_FOUND, none, ⟨bid, (storage_stat_patch fs bid).2, false, 0⟩ :: st)
      else (PATCH_NOT_FOUND, none, ⟨bid, 0, false, 0⟩ :: st)

/-- `storage_free` (kpatch_user.c:131-138): `rb_destroy` drops every cached
record; nothing else ever removes one. -/
def storage_free (_st : List CachedPatch) : List CachedPatch := []

/-- A sequence of Find calls (build-id, want-data). -/
def runFinds (fs : Fs) : List CachedPatch → List (String × Bool) → List CachedPatch
  | st, [] => st
  | st, (b, w) :: rest => runFinds fs (storage_find_patch fs st b w).2.2 rest

theorem cacheLookup_cons (e : CachedPatch) (st : List CachedPatch) (bid : String) :
    cacheLookup (e :: st) bid
      = if e.buildid == bid then some e else cacheLookup st bid := by
  simp only [cacheLookup, List.find?]
  cases h : (e.buildid == bid) with
  | true => simp [h]
  | false => simp [h]

theorem cacheLookup_self (e : CachedPatch) (st : List CachedPatch) :
    cacheLookup (e :: st) e.buildid = some e := by
  rw [cacheLookup_cons]
  simp

/-- Any `storage_find_patch` call preserves every record already in the cache:
records are only ever inserted under a key that was absent. -/
theorem cacheLookup_preserved (fs : Fs) (st : List CachedPatch) (bid : String)
    (w : Bool) (bid2 : String) (p : CachedPatch)
    (h : cacheLookup st bid2 = some p) :
    cacheLookup (storage_find_patch fs st bid w).2.2 bid2 = some p := by
  by_cases hb : bid = bid2
  · subst hb
    rw [storage_find_patch, h]
    exact h
  · have hcons : ∀ (e : CachedPatch), e.buildid = bid →
        cacheLookup (e :: st) bid2 = some p := by
      intro e he
      rw [cacheLookup_cons, he]
      rw [if_neg (by simpa using hb)]
      exact h
    rw [storage_find_patch]
    cases hl : cacheLookup st bid with
    | some q => exact h
    | none =>
      cases w with
      | true =>
        by_cases h1 : (storage_open_patch fs bid).1 = PATCH_FOUND
        · rw [if_pos h1]
          exact hcons _ rfl
        · rw [if_neg h1]
          by_cases h2 : (storage_open_patch fs bid).1 = PATCH_OPEN_ERROR
          · rw [if_pos h2]
            exact h
          · rw [if_neg h2]
            exact hcons _ rfl
      | false =>
        by_cases h2 : (storage_stat_patch fs bid).1 = PATCH_OPEN_ERROR
        · rw [if_pos h2]
          exact h
        · rw [if_neg h2]
          by_cases h1 : (storage_stat_patch fs bid).1 = PATCH_FOUND
          · rw [if_pos h1]
            exact hcons _ rfl
          · rw [if_neg h1]
            exact hcons _ rfl

theorem tryOpenVerify_some_size (f : FsFile) (rv : Int) (s : Nat)
    (h : tryOpenVerify f = some (rv, s)) : f.size = some s := by
  unfold tryOpenVerify at h
  cases hs : f.size with
  | none =>
    rw [hs] at h
    exact absurd h (by simp)
  | some s2 =>
    rw [hs] at h
    cases ho : f.openOk with
    | false =>
      rw [ho] at h
      exact absurd h (by simp)
    | true =>
      rw [ho] at h
      simp only [if_true] at h
      have := (Option.some_inj.mp h)
      have hs2 : s2 = s := congrArg Prod.snd this
      rw [hs2]

theorem storage_open_found_size (fs : Fs) (bid : String)
    (h0 : (fs.tmpl0 bid).size.getD 1 ≠ 0) (h1 : (fs.tmpl1 bid).size.getD 1 ≠ 0)
    (hf : (storage_open_patch fs bid).1 = PATCH_FOUND) :
    0 < (storage_open_patch fs bid).2.1 := by
  cases ht0 : tryOpenVerify (fs.tmpl0 bid) with
  | some pr =>
    obtain ⟨rv, s⟩ := pr
    have hsz := tryOpenVerify_some_size _ _ _ ht0
    by_cases hrf : rv = PATCH_FOUND
    · cases hll : fs.linkLevel bid with
      | some lvl =>
        have heq : storage_open_patch fs bid = (PATCH_FOUND, s, lvl) := by
          simp [storage_open_patch, ht0, hrf, hll]
        rw [heq]
        show 0 < s
        rw [hsz] at h0
        simp only [Option.getD_some] at h0
        omega
      | none =>
        have heq : storage_open_patch fs bid = (PATCH_OPEN_ERROR, 0, 0) := by
          simp [storage_open_patch, ht0, hrf, hll]
        rw [heq] at hf
        exact absurd (show PATCH_OPEN_ERROR = PATCH_FOUND from hf) (by decide)
    · have heq : storage_open_patch fs bid = (rv, 0, 0) := by
        simp [storage_open_patch, ht0, hrf]
      rw [heq] at hf
      exact absurd (show rv = PATCH_FOUND from hf) hrf
  | none =>
    cases ht1 : tryOpenVerify (fs.tmpl1 bid) with
    | some pr =>
      obtain ⟨rv, s⟩ := pr
      have hsz := tryOpenVerify_some_size _ _ _ ht1
      have heq : storage_open_patch fs bid = (rv, s, (fs.tmpl1 bid).userLevel) := by
        simp [storage_open_patch, ht0, ht1]
      rw [heq]
      show 0 < s
      rw [hsz] at h1
      simp only [Option.getD_some] at h1
      omega
    | none =>
      have heq : storage_open_patch fs bid = (PATCH_OPEN_ERROR, 0, 0) := by
        simp [storage_open_patch, ht0, ht1]
      rw [heq] at hf
      exact absurd (show PATCH_OPEN_ERROR = PATCH_FOUND from hf) (by decide)

theorem storage_stat_found_size (fs : Fs) (bid : String)
    (h0 : (fs.tmpl0 bid).size.getD 1 ≠ 0) (h1 : (fs.tmpl1 bid).size.getD 1 ≠ 0)
    (hf : (storage_stat_patch fs bid).1 = PATCH_FOUND) :
    0 < (storage_stat_patch fs bid).2 := by
  cases hs0 : (fs.tmpl0 bid).size with
  | some s =>
    have h0s : s ≠ 0 := by
      rw [hs0] at h0
      simpa using h0
    cases hll : fs.linkLevel bid with
    | some lvl =>
      have heq : storage_stat_patch fs bid = (PATCH_FOUND, s) := by
        simp [storage_stat_patch, hs0, hll]
      rw [heq]
      show 0 < s
      omega
    | none =>
      have heq : storage_stat_patch fs bid = (PATCH_OPEN_ERROR, s) := by
        simp [storage_stat_patch, hs0, hll]
      rw [heq] at hf
      exact absurd (show PATCH_OPEN_ERROR = PATCH_FOUND from hf) (by decide)
  | none =>
    cases hs1 : (fs.tmpl1 bid).size with
    | some s =>
      have h1s : s ≠ 0 := by
        rw [hs1] at h1
        simpa using h1
      have heq : storage_stat_patch fs bid = (PATCH_FOUND, s) := by
        simp [storage_stat_patch, hs0, hs1]
      rw [heq]
      show 0 < s
      omega
    | none =>
      have heq : storage_stat_patch fs bid = (PATCH_NOT_FOUND, 0) := by
        simp [storage_stat_patch, hs0, hs1]
      rw [heq] at hf
      exact absurd (show PATCH_NOT_FOUND = PATCH_FOUND from hf) (by decide)

/-- The directory of the C9 counterexample: the template-0 file for every
build-id exists and opens, but `patch_file_verify` rejects it. -/
def c9Fs : Fs :=
  { tmpl0 := fun _ => ⟨some 10, true, false, 0⟩,
    tmpl1 := fun _ => ⟨none, false, false, 0⟩,
    linkLevel := fun _ => some 3 }

/-- C9 counterexample: a Find whose probe fails verification returns
`PATCH_OPEN_ERROR` and caches nothing — `storage_find_patch` frees the probe
record and returns before the cache insertion (kpatch_user.c:305-308), so not
every Find outcome is cached under the build-id. -/
theorem find_open_error_not_cached :
    storage_find_patch c9Fs [] "B0" true = (PATCH_OPEN_ERROR, none, []) ∧
    cacheLookup (storage_find_patch c9Fs [] "B0" true).2.2 "B0" = none := by
  constructor
  · rfl
  · rfl

/-- C9 amended: `Found` and `NotFound` outcomes are cached under the build-id
(a size-0 record meaning absent), an `OpenError` outcome is not cached; once a
Find returns `Found`/`NotFound`, any later Find for the same build-id returns
the same result from the cache and leaves the cache unchanged; and no Find
ever drops or modifies a cached record — only storage teardown frees them.
Files present on disk are assumed nonempty (`patch_file_verify` rejects an
empty blob anyway). -/
theorem storage_find_cache_behaviour (fs : Fs) (st : List CachedPatch)
    (bid : String) (w w2 : Bool)
    (h0 : (fs.tmpl0 bid).size.getD 1 ≠ 0) (h1 : (fs.tmpl1 bid).size.getD 1 ≠ 0) :
    ((storage_find_patch fs st bid w).1 = PATCH_FOUND ∨
       (storage_find_patch fs st bid w).1 = PATCH_NOT_FOUND →
       ∃ p, cacheLookup (storage_find_patch fs st bid w).2.2 bid = some p ∧
         ((storage_find_patch fs st bid w).1 = PATCH_FOUND ↔ 0 < p.size)) ∧
    ((storage_find_patch fs st bid w).1 = PATCH_FOUND ∨
       (storage_find_patch fs st bid w).1 = PATCH_NOT_FOUND →
       (storage_find_patch fs (storage_find_patch fs st bid w).2.2 bid w2).1
           = (storage_find_patch fs st bid w).1 ∧
       (storage_find_patch fs (storage_find_patch fs st bid w).2.2 bid w2).2.2
           = (storage_find_patch fs st bid w).2.2) ∧
    (∀ bid2 p, cacheLookup st bid2 = some p →
       cacheLookup (storage_find_patch fs st bid w).2.2 bid2 = some p) := by
  have key : (storage_find_patch fs st bid w).1 = PATCH_FOUND ∨
      (storage_find_patch fs st bid w).1 = PATCH_NOT_FOUND →
      ∃ p, cacheLookup (storage_find_patch fs st bid w).2.2 bid = some p ∧
        ((storage_find_patch fs st bid w).1 = PATCH_FOUND ↔ 0 < p.size) := by
    intro hc
    cases hl : cacheLookup st bid with
    | some p =>
      have heq : storage_find_patch fs st bid w
          = ((if 0 < p.size then PATCH_FOUND else PATCH_NOT_FOUND),
             (if w then some p else none), st) := by
        rw [storage_find_patch, hl]
      rw [heq]
      refine ⟨p, hl, ?_⟩
      by_cases hps : 0 < p.size
      · rw [if_pos hps]
        simp [hps]
      · rw [if_neg hps]
        constructor
        · intro hcon
          exact absurd (show PATCH_NOT_FOUND = PATCH_FOUND from hcon) (by decide)
        · intro hcon
          exact absurd hcon hps
    | none =>
      cases w with
      | true =>
        by_cases h1f : (storage_open_patch fs bid).1 = PATCH_FOUND
        · have heq : storage_find_patch fs st bid true
              = (PATCH_FOUND,
                 some ⟨bid, (storage_open_patch fs bid).2.1, true,
                   (storage_open_patch fs bid).2.2⟩,
                 ⟨bid, (storage_open_patch fs bid).2.1, true,
                   (storage_open_patch fs bid).2.2⟩ :: st) := by
            rw [storage_find_patch, hl]
            rw [if_pos h1f]
            rfl
          rw [heq]
          refine ⟨_, cacheLookup_self _ st, ?_⟩
          have hspos := storage_open_found_size fs bid h0 h1 h1f
          simp [hspos]
        · by_cases h1e : (storage_open_patch fs bid).1 = PATCH_OPEN_ERROR
          · have heq : storage_find_patch fs st bid true
                = (PATCH_OPEN_ERROR, none, st) := by
              rw [storage_find_patch, hl]
              rw [if_neg h1f, if_pos h1e]
              rfl
            rw [heq] at hc
            rcases hc with hc | hc
            · exact absurd (show PATCH_OPEN_ERROR = PATCH_FOUND from hc) (by decide)
            · exact absurd (show PATCH_OPEN_ERROR = PATCH_NOT_FOUND from hc) (by decide)
          · have heq : storage_find_patch fs st bid true
                = ((storage_open_patch fs bid).1, none, ⟨bid, 0, false, 0⟩ :: st) := by
              rw [storage_find_patch, hl]
              rw [if_neg h1f, if_neg h1e]
              rfl
            rw [heq]
            refine ⟨_, cacheLookup_self _ st, ?_⟩
            constructor
            · intro hcon
              exact absurd (show (storage_open_patch fs bid).1 = PATCH_FOUND from hcon) h1f
            · intro hcon
              exact absurd (show (0 : Nat) < 0 from hcon) (by omega)
      | false =>
        by_cases h2e : (storage_stat_patch fs bid).1 = PATCH_OPEN_ERROR
        · have heq : storage_find_patch fs st bid false
              = (PATCH_OPEN_ERROR, none, st) := by
            rw [storage_find_patch, hl]
            rw [if_pos h2e]
            rfl
          rw [heq] at hc
          rcases hc with hc | hc
          · exact absurd (show PATCH_OPEN_ERROR = PATCH_FOUND from hc) (by decide)
          · exact absurd (show PATCH_OPEN_ERROR = PATCH_NOT_FOUND from hc) (by decide)
        · by_cases h2f : (storage_stat_patch fs bid).1 = PATCH_FOUND
          · have heq : storage_find_patch fs st bid false
                = (PATCH_FOUND, none,
                   ⟨bid, (storage_stat_patch fs bid).2, false, 0⟩ :: st) := by
              rw [storage_find_patch, hl]
              rw [if_neg h2e, if_pos h2f]
              rfl
            rw [heq]
            refine ⟨_, cacheLookup_self _ st, ?_⟩
            have hspos := storage_stat_found_size fs bid h0 h1 h2f
            simp [hspos]
          · have heq : storage_find_patch fs st bid false
                = (PATCH_NOT_FOUND, none, ⟨bid, 0, false, 0⟩ :: st) := by
              rw [storage_find_patch, hl]
              rw [if_neg h2e, if_neg h2f]
              rfl
            rw [heq]
            refine ⟨_, cacheLookup_self _ st, ?_⟩
            constructor
            · intro hcon
              exact absurd (show PATCH_NOT_FOUND = PATCH_FOUND from hcon) (by decide)
            · intro hcon
              exact absurd (show (0 : Nat) < 0 from hcon) (by omega)
  refine ⟨key, ?_, cacheLookup_preserved fs st bid w⟩
  intro hc
  obtain ⟨p, hp, hiff⟩ := key hc
  constructor
  · rw [storage_find_patch, hp]
    show (if 0 < p.size then PATCH_FOUND else PATCH_NOT_FOUND)
        = (storage_find_patch fs st bid w).1
    rcases hc with hF | hNF
    · rw [hF, if_pos (hiff.mp hF)]
    · rw [hNF]
      have hnp : ¬ 0 < p.size := by
        intro hpos
        have := hiff.mpr hpos
        rw [this] at hNF
        exact absurd hNF (by decide)
      rw [if_neg hnp]
  · rw [storage_find_patch, hp]

/-- The directory of the C9 amended-theorem witness: only the direct
`"<bid>.kpatch"` template exists, a valid nonempty blob. -/
def c9WitnessFs : Fs :=
  { tmpl0 := fun _ => ⟨none, false, false, 0⟩,
    tmpl1 := fun _ => ⟨some 7, true, true, 4⟩,
    linkLevel := fun _ => none }

/-- C9 amended-theorem witness: a Find for `"B"` preserves the record cached
under `"A"`. -/
theorem storage_find_cache_behaviour_witness :
    cacheLookup (storage_find_patch c9WitnessFs [⟨"A", 9, true, 2⟩] "B" true).2.2 "A"
      = some ⟨"A", 9, true, 2⟩ :=
  (storage_find_cache_behaviour c9WitnessFs [⟨"A", 9, true, 2⟩] "B" true true
      (by decide) (by decide)).2.2 "A" ⟨"A", 9, true, 2⟩ (by decide)

/-- C10: if the first Find for a build-id whose (nonempty) patch file exists
on disk is a pure existence check (`want_data = false`: `storage_stat_patch`
only stats the file and records its size), then after any further sequence of
Finds, a Find for the same build-id with `want_data = true` hits the cache and
returns `Found` with a reference to that cached record, whose blob data was
never mapped or verified in this session (`loaded = false`). -/
theorem stat_then_data_find (fs : Fs) (bid : String) (st : List CachedPatch)
    (ops : List (String × Bool)) (s : Nat)
    (hmiss : cacheLookup st bid = none)
    (hstat : storage_stat_patch fs bid = (PATCH_FOUND, s))
    (hpos : 0 < s) :
    (storage_find_patch fs st bid false).1 = PATCH_FOUND ∧
    storage_find_patch fs (runFinds fs (storage_find_patch fs st bid false).2.2 ops)
        bid true
      = (PATCH_FOUND, some ⟨bid, s, false, 0⟩,
         runFinds fs (storage_find_patch fs st bid false).2.2 ops) ∧
    (⟨bid, s, false, 0⟩ : CachedPatch).loaded = false := by
  have hne : ¬ (storage_stat_patch fs bid).1 = PATCH_OPEN_ERROR := by
    rw [hstat]
    intro hcon
    exact absurd (show PATCH_FOUND = PATCH_OPEN_ERROR from hcon) (by decide)
  have hfd : (storage_stat_patch fs bid).1 = PATCH_FOUND := by
    rw [hstat]
  have heq : storage_find_patch fs st bid false
      = (PATCH_FOUND, none, ⟨bid, s, false, 0⟩ :: st) := by
    rw [storage_find_patch, hmiss]
    rw [if_neg hne, if_pos hfd, hstat]
    rfl
  have hcache1 : cacheLookup (storage_find_patch fs st bid false).2.2 bid
      = some ⟨bid, s, false, 0⟩ := by
    rw [heq]
    exact cacheLookup_self _ st
  have hkeep : ∀ (l : List (String × Bool)) (st2 : List CachedPatch),
      cacheLookup st2 bid = some ⟨bid, s, false, 0⟩ →
      cacheLookup (runFinds fs st2 l) bid = some ⟨bid, s, false, 0⟩ := by
    intro l
    induction l with
    | nil =>
      intro st2 h2
      exact h2
    | cons op rest ih =>
      intro st2 h2
      obtain ⟨b, wb⟩ := op
      exact ih _ (cacheLookup_preserved fs st2 b wb bid _ h2)
  have hc2 := hkeep ops _ hcache1
  refine ⟨by rw [heq], ?_, rfl⟩
  rw [storage_find_patch, hc2]
  simp [hpos]

/-- The directory of the C10 witness. -/
def c10Fs : Fs :=
  { tmpl0 := fun _ => ⟨none, false, false, 0⟩,
    tmpl1 := fun _ => ⟨some 7, true, true, 4⟩,
    linkLevel := fun _ => none }

/-- C10 witness: stat-only Find for `"B"`, an unrelated data Find for `"C"`,
then a data Find for `"B"` served from the unloaded cached record. -/
theorem stat_then_data_find_witness :
    (storage_find_patch c10Fs [] "B" false).1 = PATCH_FOUND ∧
    storage_find_patch c10Fs
        (runFinds c10Fs (storage_find_patch c10Fs [] "B" false).2.2 [("C", true)])
        "B" true
      = (PATCH_FOUND, some ⟨"B", 7, false, 0⟩,
         runFinds c10Fs (storage_find_patch c10Fs [] "B" false).2.2 [("C", true)]) ∧
    (⟨"B", 7, false, 0⟩ : CachedPatch).loaded = false :=
  stat_then_data_find c10Fs "B" [] [("C", true)] 7 (by decide) (by decide) (by decide)

end Libcare
